import Mathlib

/-!
Verification development for the BARNACLE dark-calibration pipeline
(src/barnacle/calibration/dark.py).

The Python source is shallowly embedded over exact rational arithmetic:
frames and channel slices are nested lists of rationals, numpy operations
become list functions, filesystem writes become an explicit effect trace,
and exceptions become an error sum type.  IEEE non-finite values (NaN and
the infinities, which numpy produces on division by zero) are represented
explicitly by the NpVal type so that the unguarded histogram
normalisation in check_dark can be modelled faithfully.
-/

/-- Errors that the embedded pipeline can raise, mirroring the Python
exceptions that the source can actually produce: an unbound local
(NameError / UnboundLocalError), a scipy/numpy ValueError (non-finite fit
data, zero histogram bin count), an IndexError, and the TypeError raised
by polyfit on empty input. -/
inductive Err where
  | nameError
  | valueError
  | indexError
  | typeError
deriving DecidableEq, Repr

/-- Filesystem side effects performed by the pipeline: directory creation
(os.makedirs), numpy array persistence (np.save), HDF5 persistence
(save_histo_dark), and figure persistence (plt.savefig). -/
inductive Effect where
  | makedirs (path : String)
  | npSave (path : String)
  | h5save (path : String)
  | savefig (path : String)
deriving DecidableEq, Repr

/-- A numpy floating value in exact arithmetic: either a finite rational
or one of the IEEE non-finite values NaN, +inf, -inf. -/
inductive NpVal where
  | fin (q : ℚ)
  | nan
  | pinf
  | ninf
deriving DecidableEq, Repr

/-- Finiteness test for an embedded numpy value. -/
def NpVal.isFinite : NpVal → Bool
  | .fin _ => true
  | _ => false

/-- IEEE addition on embedded numpy values. -/
def npAdd : NpVal → NpVal → NpVal
  | .fin a, .fin b => .fin (a + b)
  | .fin _, .pinf => .pinf
  | .fin _, .ninf => .ninf
  | .pinf, .fin _ => .pinf
  | .ninf, .fin _ => .ninf
  | .pinf, .pinf => .pinf
  | .ninf, .ninf => .ninf
  | .pinf, .ninf => .nan
  | .ninf, .pinf => .nan
  | .nan, _ => .nan
  | _, .nan => .nan

/-- IEEE division on embedded numpy values: division of a finite value by
zero yields NaN (for a zero numerator) or a signed infinity, exactly as
numpy true division does. -/
def npDiv : NpVal → NpVal → NpVal
  | .fin a, .fin b =>
      if b = 0 then (if a = 0 then .nan else if 0 < a then .pinf else .ninf)
      else .fin (a / b)
  | .fin _, .pinf => .fin 0
  | .fin _, .ninf => .fin 0
  | .pinf, .fin b => if 0 ≤ b then .pinf else .ninf
  | .ninf, .fin b => if 0 ≤ b then .ninf else .pinf
  | .pinf, .pinf => .nan
  | .pinf, .ninf => .nan
  | .ninf, .pinf => .nan
  | .ninf, .ninf => .nan
  | .nan, _ => .nan
  | _, .nan => .nan

/-- numpy sum of a vector of embedded values (np.sum starts from 0). -/
def npSum (l : List NpVal) : NpVal := l.foldl npAdd (.fin 0)

/-- Concatenation of a list of lists (used to model numpy ravel). -/
def listJoin (xs : List (List α)) : List α := xs.foldr (· ++ ·) []

/-- A detector frame: 344 rows of 96 pixels (nested lists of rationals). -/
abbrev Mat := List (List ℚ)

/-- A per-frame channel slice: 96 spatial x 16 channels x 20 spectral. -/
abbrev Ten3 := List (List (List ℚ))

/-- All-zero matrix, np.zeros((m, n)). -/
def zeroM (m n : ℕ) : Mat := List.replicate m (List.replicate n (0 : ℚ))

/-- All-zero rank-3 tensor, np.zeros((a, b, c)). -/
def zeroT (a b c : ℕ) : Ten3 :=
  List.replicate a (List.replicate b (List.replicate c (0 : ℚ)))

/-- Elementwise matrix addition (numpy + on equal-shape 2-D arrays). -/
def mAdd (x y : Mat) : Mat := List.zipWith (List.zipWith (· + ·)) x y

/-- Elementwise rank-3 addition. -/
def tAdd (x y : Ten3) : Ten3 :=
  List.zipWith (List.zipWith (List.zipWith (· + ·))) x y

/-- Elementwise rank-3 subtraction. -/
def tSub (x y : Ten3) : Ten3 :=
  List.zipWith (List.zipWith (List.zipWith (· - ·))) x y

/-- Elementwise division of a matrix by a scalar frame count. -/
def mDivN (x : Mat) (k : ℕ) : Mat := x.map (List.map (· / (k : ℚ)))

/-- Elementwise division of a rank-3 tensor by a scalar frame count. -/
def tDivN (x : Ten3) (k : ℕ) : Ten3 :=
  x.map (List.map (List.map (· / (k : ℚ))))

/-- Flatten a matrix to a vector (np.ravel on a 2-D array). -/
def matFlatten (m : Mat) : List ℚ := listJoin m

/-- Arithmetic mean of a list of rationals (np.mean; every use site in the
pipeline applies it to a nonempty list, see the guards in check_dark). -/
def meanQ (l : List ℚ) : ℚ := l.sum / (l.length : ℚ)

/-- Mean of a whole frame, dark.data.mean(axis=(1,2)) for one frame. -/
def frameMean (m : Mat) : ℚ := meanQ (matFlatten m)

/-- Single element of a per-frame slice, slices[t][i][j][k]. -/
def idx3 (s : Ten3) (i j k : ℕ) : ℚ := ((s.getD i []).getD j []).getD k 0

/-- The 20 spectral samples of one frame slice at spatial row i, channel
j: slices[t][i][j][:]. -/
def row3 (s : Ten3) (i j : ℕ) : List ℚ := (s.getD i []).getD j []

/-- Python index normalisation for a slice bound over a list of length n:
negative indices count from the end, and both directions clamp. -/
def pyIdx (n : ℕ) (i : Int) : ℕ :=
  if i < 0 then ((n : Int) + i).toNat else min i.toNat n

/-- Python list slicing l[a:b] where either bound may be absent (None). -/
def pySlice (l : List α) (a b : Option Int) : List α :=
  let n := l.length
  let s := match a with | none => 0 | some i => pyIdx n i
  let e := match b with | none => n | some i => pyIdx n i
  (l.drop s).take (e - s)

/-- Boolean test that p occurs at the head of l. -/
def isPre : List Char → List Char → Bool
  | [], _ => true
  | _ :: _, [] => false
  | a :: p, b :: l => a == b && isPre p l

/-- Boolean substring containment, the Python expression p in l on
strings (here on their character lists). -/
def containsSub (p : List Char) : List Char → Bool
  | [] => isPre p []
  | c :: l => isPre p (c :: l) || containsSub p l

/-- The file-selection predicate of get_average_dark, from
dark.py line 138: keyword in f and not a txt-marked name — the source
tests substring containment of the four characters of the txt extension
anywhere in the name, not only as a suffix. -/
def fileFilter (keyword f : String) : Bool :=
  containsSub keyword.data f.data && ! containsSub ".txt".data f.data

/-- One loaded dark exposure.  Modelled from the spec: the Null loader
(glint_classes, an external collaborator not under src/) returns a stack
of frames (data, shape N x 344 x 96) together with the frame count nbimg,
and getChannels derives the per-frame channel slices (shape
N x 96 x 16 x 20) from the fixed channel geometry. -/
structure Exposure where
  data : List Mat
  nbimg : ℕ
  slices : List Ten3

/-- dark.data.sum(axis=0): numpy reduces an empty frame stack of shape
(0, 344, 96) to the all-zero (344, 96) array. -/
def npSumAxis0M (fs : List Mat) : Mat :=
  match fs with
  | [] => zeroM 344 96
  | h :: t => t.foldl mAdd h

/-- dark.slices.sum(axis=0): the empty stack of (0, 96, 16, 20) slices
reduces to the all-zero (96, 16, 20) array. -/
def npSumAxis0T (ss : List Ten3) : Ten3 :=
  match ss with
  | [] => zeroT 96 16 20
  | h :: t => t.foldl tAdd h

/-- np.linspace a b n in exact arithmetic: n evenly spaced points from a
to b inclusive. -/
def linspaceQ (a b : ℚ) (n : ℕ) : List ℚ :=
  if n ≤ 1 then List.replicate n a
  else (List.range n).map (fun (i : ℕ) => a + (i : ℚ) * ((b - a) / ((n : ℚ) - 1)))

/-- The step returned by np.linspace(..., retstep=True). -/
def linStepQ (a b : ℚ) (n : ℕ) : ℚ := (b - a) / ((n : ℚ) - 1)

/-- The histogram bin-edge sequence built by check_dark (dark.py lines
222-223): linspace(edge_min - 0.5, edge_max + 0.5, edge_max - edge_min + 1). -/
def binEdges (emin emax : ℤ) : List ℚ :=
  linspaceQ ((emin : ℚ) - 1/2) ((emax : ℚ) + 1/2) (emax - emin + 1).toNat

/-- The linspace step for the bin edges of check_dark. -/
def binStep (emin emax : ℤ) : ℚ :=
  linStepQ ((emin : ℚ) - 1/2) ((emax : ℚ) + 1/2) (emax - emin + 1).toNat

/-- Bin centers, dark.py line 224: bin_hist[:-1] + step/2. -/
def binCenters (emin emax : ℤ) : List ℚ :=
  (binEdges emin emax).dropLast.map (· + binStep emin emax / 2)

/-- Count of the values of a bin [lo, hi) — the rightmost numpy bin is
closed on both sides. -/
def countBin (vals : List ℚ) (lo hi : ℚ) (lastBin : Bool) : ℕ :=
  (vals.filter (fun x => lo ≤ x && (if lastBin then x ≤ hi else x < hi))).length

/-- np.histogram(vals, bins=edges)[0]: values outside the edge range are
dropped; all interior bins are right-open, the last is right-closed. -/
def npHistogram (vals : List ℚ) (edges : List ℚ) : List ℕ :=
  let m := edges.length
  (List.range (m - 1)).map (fun i =>
    countBin vals (edges.getD i 0) (edges.getD (i + 1) 0) (i = m - 2))

/-- The get_histogram helper of dark.py (lines 92-110): ravel the data
and take the counts of np.histogram against the given edges.  Flattening
is performed by the callers of this embedding. -/
def get_histogram (vals : List ℚ) (edges : List ℚ) : List ℕ :=
  npHistogram vals edges

/-- Smallest element of a list of rationals (0 for an empty list; every
use is guarded by a nonemptiness check). -/
def minQ : List ℚ → ℚ
  | [] => 0
  | [x] => x
  | x :: y :: t => min x (minQ (y :: t))

/-- Largest element of a list of rationals. -/
def maxQ : List ℚ → ℚ
  | [] => 0
  | [x] => x
  | x :: y :: t => max x (maxQ (y :: t))

/-- np.histogram(vals, bins=n) with an integral bin count: the edges are
n+1 evenly spaced points over [min vals, max vals], widened by 0.5 each
way when the range is degenerate. -/
def npHistogramAuto (vals : List ℚ) (nbins : ℕ) : List ℕ × List ℚ :=
  let lo := minQ vals
  let hi := maxQ vals
  let lo2 := if lo = hi then lo - 1/2 else lo
  let hi2 := if lo = hi then hi + 1/2 else hi
  let edges := linspaceQ lo2 hi2 (nbins + 1)
  (npHistogram vals edges, edges)

/-- np.sum(-, axis=0) of a stack of equal-length count vectors. -/
def sumAxis0Vec (xs : List (List ℕ)) : List ℕ :=
  match xs with
  | [] => []
  | h :: t => t.foldl (fun acc x => List.zipWith (· + ·) acc x) h

/-- np.sum(hist_slices, axis=0): stack of per-file 16 x bins count
matrices summed across the file axis. -/
def sumAxis0HistMat (xs : List (List (List ℕ))) : List (List ℕ) :=
  match xs with
  | [] => []
  | h :: t =>
      t.foldl (fun acc x => List.zipWith (fun r1 r2 => List.zipWith (· + ·) r1 r2) acc x) h

/-- The per-channel histogram normalisation of check_dark, dark.py line
267: super_hist / np.sum(super_hist, axis=1)[:, None].  Every row is
divided by that row's own total, unconditionally; a zero row total makes
the division produce non-finite values. -/
def normalizePerChannel (superHist : List (List ℕ)) : List (List NpVal) :=
  superHist.map (fun row =>
    row.map (fun (c : ℕ) => npDiv (.fin (c : ℚ)) (.fin ((row.sum : ℕ) : ℚ))))

/-- The global histogram normalisation of check_dark, dark.py line 270:
list_hist / np.sum(list_hist). -/
def normalizeGlobal (l : List ℕ) : List NpVal :=
  l.map (fun (c : ℕ) => npDiv (.fin (c : ℚ)) (.fin ((l.sum : ℕ) : ℚ)))

/-- scipy.optimize.curve_fit as the source uses it: scipy validates that
the input data is finite and raises ValueError otherwise; the nonlinear
least-squares estimate itself is an external collaborator (spec section 1)
and is supplied as the abstract function fitFn. -/
def curveFitM (fitFn : List ℚ → List NpVal → List ℚ)
    (xdata : List ℚ) (ydata : List NpVal) : Except Err (List ℚ) :=
  if ydata.all NpVal.isFinite then .ok (fitFn xdata ydata) else .error .valueError

/-- The per-channel Gaussian-fit loop of check_dark, dark.py lines
272-278: for i in range(16), fit channel row i; the loop indexes
super_hist[i] and aborts on the first scipy error. -/
def fitPerChannel (fitFn : List ℚ → List NpVal → List ℚ)
    (cent : List ℚ) (rows : List (List NpVal)) : Except Err (List (List ℚ)) :=
  (List.range 16).foldl
    (fun acc i =>
      match acc with
      | .error e => .error e
      | .ok ps =>
          if i < rows.length then
            match curveFitM fitFn cent (rows.getD i []) with
            | .error e => .error e
            | .ok p => .ok (ps ++ [p])
          else .error .indexError)
    (.ok [])

/-- State of the exception-driven series accumulation in the per-file
loop of check_dark (dark.py lines 241-256): dark_current doubles as the
first-iteration marker of the try/except NameError pattern. -/
structure SeriesState where
  darkCurrent : Option (List (List ℚ))
  dk56 : List ℚ
  dk56bis : List ℚ

/-- Per-frame channel means, dark.slices.mean(axis=(1,3)) for one frame:
for each channel, the mean over the 96 spatial and 20 spectral samples. -/
def chanMeans (s : Ten3) : List ℚ :=
  (List.range ((s.headD []).length)).map
    (fun k => meanQ (listJoin (s.map (fun spat => spat.getD k []))))

/-- One iteration of the series accumulation (dark.py lines 241-256),
applied to the baseline-subtracted slices of one file.  Note the source
text of line 247: dk56bis is assigned np.vstack((dk56, ...)) — it stacks
the new value under the (already updated) dk56 series, discarding the
previous dk56bis — and line 248 takes slices[:, 56, 15, 10].mean(axis=-1),
which collapses the frame axis of the 1-D sample vector to a single
scalar. -/
def updateSeries (st : SeriesState) (slicesB : List Ten3) : SeriesState :=
  let newDc := slicesB.map chanMeans
  let new56 := slicesB.map (fun s => meanQ (row3 s 56 15))
  let newBis := meanQ (slicesB.map (fun s => idx3 s 56 15 10))
  match st.darkCurrent with
  | some dc =>
      let dk56u := st.dk56 ++ new56
      ⟨some (dc ++ newDc), dk56u, dk56u ++ [newBis]⟩
  | none => ⟨some newDc, new56, [newBis]⟩

/-- Loop state of the per-file pass of check_dark: the list of per-file
whole-frame histograms, the list of per-file per-channel histograms, and
the time-series accumulators. -/
structure CheckState where
  listHist : List (List ℕ)
  histSlices : List (List (List ℕ))
  series : SeriesState

/-- slices[:, :, k, :] flattened: all spectral samples of channel k over
all frames and spatial rows, in C order. -/
def channelVals (slicesB : List Ten3) (k : ℕ) : List ℚ :=
  listJoin (slicesB.map (fun s => listJoin (s.map (fun spat => spat.getD k []))))

/-- One iteration of the per-file loop of check_dark (dark.py lines
228-262): whole-frame mean-subtracted histogram, baseline subtraction of
the per-channel average, series accumulation, and the 16 per-channel
histograms. -/
def checkStep (load : String → Exposure) (sdc : Ten3) (binHist : List ℚ)
    (st : CheckState) (f : String) : CheckState :=
  let dark := load f
  let gvals := listJoin (dark.data.map (fun fr =>
    (matFlatten fr).map (fun x => x - frameMean fr)))
  let slicesB := dark.slices.map (fun s => tSub s sdc)
  let perFile := (List.range 16).map (fun k =>
    get_histogram (channelVals slicesB k) binHist)
  ⟨st.listHist ++ [npHistogram gvals binHist],
   st.histSlices ++ [perFile],
   updateSeries st.series slicesB⟩

/-- The whole per-file loop of check_dark. -/
def checkLoop (load : String → Exposure) (sdc : Ten3) (binHist : List ℚ)
    (darkList : List String) : CheckState :=
  darkList.foldl (checkStep load sdc binHist) ⟨[], [], ⟨none, [], []⟩⟩

/-- Return value of check_dark: the 16 fitted parameter triples, the
per-channel histograms paired with the bin left edges, and the global
histogram paired with the bin left edges. -/
structure CheckOut where
  params : List (List ℚ)
  histChannels : List (List NpVal) × List ℚ
  histGlobal : List NpVal × List ℚ

/-- The three HDF5 writes of check_dark (dark.py lines 284-288),
performed only when save is set. -/
def h5saveEffects (op : String) (save : Bool) : List Effect :=
  if save then
    [Effect.h5save (op ++ "hist_dk_params.hdf5"),
     Effect.h5save (op ++ "hist_dk_slices.hdf5"),
     Effect.h5save (op ++ "hist_dk.hdf5")] else []

/-- The three histogram figure writes of check_dark (dark.py lines 308,
325, 344), performed only when save is set. -/
def histFigEffects (op : String) (save : Bool) : List Effect :=
  if save then
    [Effect.savefig (op ++ "histogram_dark_fullframe.png"),
     Effect.savefig (op ++ "histogram_dark.png"),
     Effect.savefig (op ++ "histogram_dark_logscale.png")] else []

/-- The drift time-lapse figure write of check_dark (dark.py line 434). -/
def lapseFigEffect (op : String) (save : Bool) : List Effect :=
  if save then [Effect.savefig (op ++ "avg_time_lapse.png")] else []

/-- The whole-frame average trend figure write of check_dark (dark.py
line 483). -/
def avgFigEffect (op : String) (save : Bool) : List Effect :=
  if save then [Effect.savefig (op ++ "avg_dark_fullframe.png")] else []

/-- The normalised per-channel summed histogram of check_dark (dark.py
lines 264-267). -/
def superHistNOf (load : String → Exposure) (sdc : Ten3) (emin emax : ℤ)
    (dl : List String) : List (List NpVal) :=
  normalizePerChannel (sumAxis0HistMat (checkLoop load sdc (binEdges emin emax) dl).histSlices)

/-- The normalised global summed histogram of check_dark (dark.py lines
269-270). -/
def listHistNOf (load : String → Exposure) (sdc : Ten3) (emin emax : ℤ)
    (dl : List String) : List NpVal :=
  normalizeGlobal (sumAxis0Vec (checkLoop load sdc (binEdges emin emax) dl).listHist)

/-- The Diagnostics Engine, check_dark (dark.py lines 192-485).  Returns
the effect trace together with either the diagnostic outputs or the first
raised error.  Plot rendering is presentational (spec section 1) and is
modelled only through its savefig effects and through the failure
conditions of the data fed to it: np.histogram raises on a zero bin
count (dk56 or dk56bis empty), and np.polyfit raises on the empty binned
series produced when fewer than 10 frames (or fewer than 10 avg_dark
samples) are available for the drift regression. -/
def check_dark (load : String → Exposure) (darkList : List String)
    (avgDark : List ℚ) (edgeMin edgeMax : ℤ) (superDarkChannel : Ten3)
    (save : Bool) (outputPath : String)
    (fitFn : List ℚ → List NpVal → List ℚ) : List Effect × Except Err CheckOut :=
  match fitPerChannel fitFn (binCenters edgeMin edgeMax)
      (superHistNOf load superDarkChannel edgeMin edgeMax darkList) with
  | .error e => ([], .error e)
  | .ok params =>
    match curveFitM fitFn (binCenters edgeMin edgeMax)
        (listHistNOf load superDarkChannel edgeMin edgeMax darkList) with
    | .error e => (h5saveEffects outputPath save, .error e)
    | .ok _ =>
      if (checkLoop load superDarkChannel (binEdges edgeMin edgeMax)
            darkList).series.dk56.length = 0 then
        (h5saveEffects outputPath save ++ histFigEffects outputPath save,
         .error .valueError)
      else if (checkLoop load superDarkChannel (binEdges edgeMin edgeMax)
            darkList).series.dk56bis.length = 0 then
        (h5saveEffects outputPath save ++ histFigEffects outputPath save,
         .error .valueError)
      else if ((checkLoop load superDarkChannel (binEdges edgeMin edgeMax)
            darkList).series.darkCurrent.getD []).length / 10 = 0 then
        (h5saveEffects outputPath save ++ histFigEffects outputPath save,
         .error .typeError)
      else if avgDark.length / 10 = 0 then
        (h5saveEffects outputPath save ++ histFigEffects outputPath save
           ++ lapseFigEffect outputPath save,
         .error .typeError)
      else
        (h5saveEffects outputPath save ++ histFigEffects outputPath save
           ++ lapseFigEffect outputPath save ++ avgFigEffect outputPath save,
         .ok ⟨params,
              (superHistNOf load superDarkChannel edgeMin edgeMax darkList,
               (binEdges edgeMin edgeMax).dropLast),
              (listHistNOf load superDarkChannel edgeMin edgeMax darkList,
               (binEdges edgeMin edgeMax).dropLast)⟩)

/-- Inputs of a get_average_dark run.  The directory listing, the loader
(an external collaborator), and the curve-fit estimator are supplied as
data; outputExists models os.path.exists(output_path) at entry. -/
structure Args where
  dataPath : String
  listing : List String
  load : String → Exposure
  nb0 : Option Int
  nb1 : Option Int
  save : Bool
  monitor : Bool
  edgeMin : ℤ
  edgeMax : ℤ
  keyword : String
  outputPath : String
  outputExists : Bool
  fitFn : List ℚ → List NpVal → List ℚ

/-- The filename filter applied to the directory listing (dark.py lines
137-138, before index-range slicing). -/
def filteredFiles (a : Args) : List String :=
  a.listing.filter (fun f => fileFilter a.keyword f)

/-- The selected dark file list, dark.py lines 137-138: filter the
listing, prefix the data path, then apply the nb_files slice. -/
def darkListOf (a : Args) : List String :=
  pySlice ((filteredFiles a).map (fun f => a.dataPath ++ f)) a.nb0 a.nb1

/-- Total number of frames contributed by the selected exposure list. -/
def totalFrames (a : Args) : ℕ :=
  ((darkListOf a).map (fun f => (a.load f).nbimg)).sum

/-- Mutable state of the accumulation loop of get_average_dark (dark.py
lines 147-170).  avgDark and spatialAxis model the locals that are only
ever bound inside the loop body (the try/except NameError pattern for
avg_dark, plain assignment for spatial_axis): none means unbound. -/
structure LoopState where
  superDark : Mat
  superDarkChannel : Ten3
  nbImg : ℕ
  avgDark : Option (List ℚ)
  spatialAxis : Option (List ℕ)

/-- Initial accumulators of get_average_dark, dark.py lines 147-149:
np.zeros((344, 96)), np.zeros((96, 16, 20)), and a zero frame count. -/
def initLoop : LoopState := ⟨zeroM 344 96, zeroT 96 16 20, 0, none, none⟩

/-- One iteration of the accumulation loop of get_average_dark (dark.py
lines 151-170): add the frame-sum into the whole-frame sum, add the frame
count, rebind the spatial axis, add the channel-slice frame-sum, and — in
monitoring mode — append the per-frame spatial means to avg_dark. -/
def stepExposure (monitor : Bool) (load : String → Exposure)
    (st : LoopState) (f : String) : LoopState :=
  let dark := load f
  ⟨mAdd st.superDark (npSumAxis0M dark.data),
   tAdd st.superDarkChannel (npSumAxis0T dark.slices),
   st.nbImg + dark.nbimg,
   if monitor then some (st.avgDark.getD [] ++ dark.data.map frameMean)
   else st.avgDark,
   some (List.range dark.data.length)⟩

/-- Return value of get_average_dark: the two averages, plus the
diagnostics outputs when monitoring was requested. -/
structure RunOut where
  superDark : Mat
  superDarkChannel : Ten3
  monitorOut : Option CheckOut

/-- The final state of the accumulation loop of get_average_dark over the
selected file list (dark.py lines 147-170). -/
def loopStateOf (a : Args) : LoopState :=
  (darkListOf a).foldl (stepExposure a.monitor a.load) initLoop

/-- The directory-creation effect of get_average_dark (dark.py lines
140-141): the output directory is created whenever it does not already
exist, unconditionally on the save flag. -/
def effDirOf (a : Args) : List Effect :=
  if a.outputExists then [] else [Effect.makedirs a.outputPath]

/-- The finalized whole-frame average (dark.py lines 172-173): divided by
the frame count only when the count is nonzero. -/
def superDarkFinal (a : Args) : Mat :=
  if (loopStateOf a).nbImg ≠ 0 then mDivN (loopStateOf a).superDark (loopStateOf a).nbImg
  else (loopStateOf a).superDark

/-- The finalized per-channel average (dark.py lines 172, 174). -/
def superDarkChannelFinal (a : Args) : Ten3 :=
  if (loopStateOf a).nbImg ≠ 0 then
    tDivN (loopStateOf a).superDarkChannel (loopStateOf a).nbImg
  else (loopStateOf a).superDarkChannel

/-- The np.save effects of get_average_dark (dark.py lines 175-177):
performed only inside the nonzero-frame-count branch and only when save
is set. -/
def effSaveOf (a : Args) : List Effect :=
  if (loopStateOf a).nbImg ≠ 0 then
    (if a.save then
      [Effect.npSave (a.outputPath ++ "superdark"),
       Effect.npSave (a.outputPath ++ "superdarkchannel")] else [])
  else []

/-- The Accumulator, get_average_dark (dark.py lines 113-189), as an
effect trace paired with its result or first raised error.  Monitoring
calls check_dark with the loop-bound locals avg_dark and spatial_axis,
which raises an unbound-local NameError when the loop body never ran
(dark.py lines 179-183). -/
def get_average_dark (a : Args) : List Effect × Except Err RunOut :=
  if a.monitor then
    match (loopStateOf a).avgDark, (loopStateOf a).spatialAxis with
    | some ad, some _ =>
        (effDirOf a ++ (effSaveOf a
           ++ (check_dark a.load (darkListOf a) ad a.edgeMin a.edgeMax
                 (superDarkChannelFinal a) a.save a.outputPath a.fitFn).1),
         match (check_dark a.load (darkListOf a) ad a.edgeMin a.edgeMax
                 (superDarkChannelFinal a) a.save a.outputPath a.fitFn).2 with
         | .error e => .error e
         | .ok co => .ok ⟨superDarkFinal a, superDarkChannelFinal a, some co⟩)
    | _, _ => (effDirOf a ++ effSaveOf a, .error .nameError)
  else (effDirOf a ++ effSaveOf a, .ok ⟨superDarkFinal a, superDarkChannelFinal a, none⟩)

/-- A list of naturals sums to zero only if every entry is zero. -/
theorem natSum_zero (l : List ℕ) (h : l.sum = 0) : ∀ x ∈ l, x = 0 := by
  intro x hx
  induction l with
  | nil => simp at hx
  | cons a t ih =>
      simp at h hx
      rcases hx with rfl | hx
      · exact h.1
      · exact ih h.2 hx

/-- Adding two zero rows elementwise yields the zero row. -/
theorem zipWith_add_zeroRow (n : ℕ) :
    List.zipWith (· + ·) (List.replicate n (0 : ℚ)) (List.replicate n 0)
      = List.replicate n 0 := by
  induction n with
  | zero => rfl
  | succ k ih => simp [List.replicate_succ, ih]

/-- Adding the zero matrix to itself yields the zero matrix. -/
theorem mAdd_zeroM (m n : ℕ) : mAdd (zeroM m n) (zeroM m n) = zeroM m n := by
  induction m with
  | zero => rfl
  | succ k ih =>
      simp only [mAdd, zeroM] at ih ⊢
      simp only [List.replicate_succ, List.zipWith_cons_cons]
      rw [zipWith_add_zeroRow n, ih]

/-- Adding the zero tensor to itself yields the zero tensor. -/
theorem tAdd_zeroT (a b c : ℕ) : tAdd (zeroT a b c) (zeroT a b c) = zeroT a b c := by
  induction a with
  | zero => rfl
  | succ k ih =>
      have hm := mAdd_zeroM b c
      simp only [mAdd, zeroM] at hm
      simp only [tAdd, zeroT] at ih ⊢
      simp only [List.replicate_succ, List.zipWith_cons_cons]
      rw [hm, ih]

/-- Reading a mapped range at an in-range index. -/
theorem getD_range_map (f : ℕ → ℚ) (n i : ℕ) (d : ℚ) (h : i < n) :
    ((List.range n).map f).getD i d = f i := by
  rw [List.getD_eq_getElem?_getD]
  simp [List.getElem?_map, List.getElem?_range h]

/-- Distributing a common divisor over a list sum. -/
theorem sum_map_div (l : List ℚ) (T : ℚ) :
    (l.map (fun x => x / T)).sum = l.sum / T := by
  induction l with
  | nil => simp
  | cons h t ih => simp [ih, add_div]

/-- npSum of a list of finite values is the finite sum. -/
theorem npSum_map_fin (g : α → ℚ) (l : List α) :
    npSum (l.map (fun x => NpVal.fin (g x))) = .fin ((l.map g).sum) := by
  have key : ∀ (l : List α) (acc : ℚ),
      (l.map (fun x => NpVal.fin (g x))).foldl npAdd (.fin acc)
        = .fin (acc + (l.map g).sum) := by
    intro l
    induction l with
    | nil => intro acc; simp
    | cons h t ih => intro acc; simp [npAdd, ih, add_assoc]
  simpa using key l 0

/-- C5 (counterexample): with edges (0, 2) the bin-edge sequence of
check_dark is linspace(-0.5, 2.5, 3) = [-1/2, 1, 5/2]; the first two
consecutive edges differ by 3/2, not by 1, so the bins are not
unit-width. -/
theorem c5_unit_width_counterexample :
    (0 : ℤ) < 2 ∧
    (binEdges 0 2).getD 1 0 - (binEdges 0 2).getD 0 0 = 3/2 ∧ ((3 : ℚ)/2 ≠ 1) := by
  refine ⟨by norm_num, by with_unfolding_all rfl, by norm_num⟩

/-- C5 (amended): for integer bounds edge_min < edge_max the bin-edge
sequence linspace(edge_min - 0.5, edge_max + 0.5, edge_max - edge_min + 1)
is monotonically increasing with a constant consecutive difference, but
that difference is (edge_max - edge_min + 1) / (edge_max - edge_min),
which is strictly greater than 1 — not the unit width the spec states. -/
theorem c5_binEdges_spacing (emin emax : ℤ) (i : ℕ) (h : emin < emax)
    (hi : i + 1 < (binEdges emin emax).length) :
    (binEdges emin emax).Pairwise (· < ·) ∧
    (binEdges emin emax).getD (i+1) 0 - (binEdges emin emax).getD i 0
      = ((emax : ℚ) - emin + 1) / ((emax : ℚ) - emin) ∧
    1 < ((emax : ℚ) - emin + 1) / ((emax : ℚ) - emin) := by
  set D : ℚ := (emax : ℚ) - emin with hD
  have hD1 : 1 ≤ D := by
    have h1 : emin + 1 ≤ emax := h
    have h2 : ((emin : ℚ) + 1) ≤ (emax : ℚ) := by exact_mod_cast h1
    rw [hD]; linarith
  have hD0 : 0 < D := by linarith
  set n : ℕ := (emax - emin + 1).toNat with hn
  have hnz : ((n : ℤ)) = emax - emin + 1 := by
    rw [hn]
    exact Int.toNat_of_nonneg (by omega)
  have hnq : ((n : ℚ)) = D + 1 := by
    have h2 : ((n : ℤ) : ℚ) = ((emax - emin + 1 : ℤ) : ℚ) := by rw [hnz]
    push_cast at h2
    rw [hD]; linarith
  have hn2 : ¬ (n ≤ 1) := by
    intro hle
    have h3 : ((n : ℚ)) ≤ 1 := by exact_mod_cast hle
    rw [hnq] at h3
    linarith
  have hstep : (((emax : ℚ) + 1/2) - ((emin : ℚ) - 1/2)) / ((n : ℚ) - 1) = (D + 1) / D := by
    rw [hnq, hD]
    ring_nf
  have hbe : binEdges emin emax
      = (List.range n).map
          (fun (j : ℕ) => ((emin : ℚ) - 1/2)
            + (j : ℚ) * ((((emax : ℚ) + 1/2) - ((emin : ℚ) - 1/2)) / ((n : ℚ) - 1))) := by
    rw [binEdges, linspaceQ, if_neg hn2]
  have hs : 0 < (D + 1) / D := div_pos (by linarith) hD0
  have hlen : (binEdges emin emax).length = n := by
    rw [hbe]; simp
  have hi2 : i + 1 < n := by rw [hlen] at hi; exact hi
  refine ⟨?_, ?_, ?_⟩
  · rw [hbe]
    refine List.pairwise_map.mpr ((List.pairwise_lt_range n).imp ?_)
    intro a b hab
    have hc : (a : ℚ) < (b : ℚ) := by exact_mod_cast hab
    have hm := mul_lt_mul_of_pos_right hc (hstep ▸ hs)
    linarith
  · rw [hbe, getD_range_map _ n (i+1) 0 hi2, getD_range_map _ n i 0 (by omega), hstep]
    push_cast
    ring
  · rw [one_lt_div hD0]
    linarith

/-- isPre decides list-prefix: p is at the head of l iff l = p ++ t. -/
theorem isPre_iff (p : List Char) : ∀ l, isPre p l = true ↔ ∃ t, l = p ++ t := by
  induction p with
  | nil => intro l; simp [isPre]
  | cons a p ih =>
      intro l
      cases l with
      | nil => simp [isPre]
      | cons b l2 =>
          simp only [isPre, Bool.and_eq_true, beq_iff_eq, ih]
          constructor
          · rintro ⟨rfl, t, rfl⟩
            exact ⟨t, rfl⟩
          · rintro ⟨t, he⟩
            injection he with h1 h2
            exact ⟨h1.symm, t, h2⟩

/-- containsSub decides substring occurrence: p occurs in l iff
l = s ++ p ++ t for some s and t. -/
theorem containsSub_iff (p : List Char) : ∀ l, containsSub p l = true ↔ ∃ s t, l = s ++ p ++ t := by
  intro l
  induction l with
  | nil =>
      rw [containsSub, isPre_iff]
      constructor
      · rintro ⟨t, ht⟩
        exact ⟨[], t, by simpa using ht⟩
      · rintro ⟨s, t, hst⟩
        have h0 := List.append_eq_nil.mp hst.symm
        rcases List.append_eq_nil.mp h0.1 with ⟨hs, hp⟩
        exact ⟨t, by simp [hp, h0.2]⟩
  | cons c l2 ih =>
      rw [containsSub]
      simp only [Bool.or_eq_true, isPre_iff, ih]
      constructor
      · rintro (⟨t, ht⟩ | ⟨s, t, hst⟩)
        · exact ⟨[], t, by simpa using ht⟩
        · exact ⟨c :: s, t, by simp [hst]⟩
      · rintro ⟨s, t, hst⟩
        cases s with
        | nil => exact Or.inl ⟨t, by simpa using hst⟩
        | cons d s2 =>
            refine Or.inr ?_
            have hst2 : c :: l2 = d :: (s2 ++ p ++ t) := by simpa using hst
            injection hst2 with h1 h2
            exact ⟨s2, t, h2⟩

/-- C7 (counterexample): the name dark.txt.bin contains the keyword dark
and carries ".txt" only in the middle, not as a suffix, so the claim says
it is selected; the source filter rejects it because it tests ".txt" as a
substring anywhere in the name. -/
theorem c7_txt_substring_counterexample :
    (∃ s t, "dark.txt.bin".data = s ++ "dark".data ++ t) ∧
    (¬ ∃ s, "dark.txt.bin".data = s ++ ".txt".data) ∧
    fileFilter "dark" "dark.txt.bin" = false := by
  refine ⟨⟨[], ".txt.bin".data, by with_unfolding_all rfl⟩, ?_, by with_unfolding_all rfl⟩
  rintro ⟨s, hs⟩
  have h12 : "dark.txt.bin".data.length = 12 := by with_unfolding_all rfl
  have h4 : ".txt".data.length = 4 := by with_unfolding_all rfl
  have hlen : s.length = 8 := by
    have hl := congrArg List.length hs
    rw [List.length_append, h12, h4] at hl
    omega
  have hdrop : "dark.txt.bin".data.drop 8 = ".txt".data := by
    rw [hs, ← hlen, List.drop_left]
  exact absurd hdrop (by with_unfolding_all decide)

/-- C7 (amended): get_average_dark selects a file name iff it contains
the keyword as a substring and does not contain ".txt" as a substring
anywhere in the name — not merely when ".txt" is a suffix. -/
theorem c7_fileFilter_characterisation (keyword f : String) :
    fileFilter keyword f = true ↔
      ((∃ s t, f.data = s ++ keyword.data ++ t) ∧
       ¬ (∃ s t, f.data = s ++ ".txt".data ++ t)) := by
  rw [fileFilter, Bool.and_eq_true, containsSub_iff, Bool.not_eq_true']
  rw [Bool.eq_false_iff, Ne, containsSub_iff]

/-- Reading a normalised per-channel histogram row at an in-range index. -/
theorem normalizePerChannel_getD (hs : List (List ℕ)) (i : ℕ) (hi : i < hs.length) :
    (normalizePerChannel hs).getD i []
      = (hs.getD i []).map
          (fun (c : ℕ) => npDiv (.fin (c : ℚ)) (.fin (((hs.getD i []).sum : ℕ) : ℚ))) := by
  have h1 : hs.getD i [] = hs[i] := by
    rw [List.getD_eq_getElem?_getD, List.getElem?_eq_getElem hi]
    rfl
  rw [h1, List.getD_eq_getElem?_getD, normalizePerChannel, List.getElem?_map,
      List.getElem?_eq_getElem hi]
  rfl

/-- C2 (confirmed): check_dark sums the per-channel per-file histograms
across the file axis and divides each channel row by that row's own total
count; any row with a nonzero total count sums to exactly 1 after
normalisation (exact arithmetic), with no shared denominator across
channels. -/
theorem c2_channel_rows_normalise_to_one (histSlices : List (List (List ℕ))) (i : ℕ)
    (hi : i < (sumAxis0HistMat histSlices).length)
    (hnz : ((sumAxis0HistMat histSlices).getD i []).sum ≠ 0) :
    npSum ((normalizePerChannel (sumAxis0HistMat histSlices)).getD i []) = .fin 1 := by
  set rows := sumAxis0HistMat histSlices with hrows
  set row := rows.getD i [] with hrow
  have hT : (((row.sum : ℕ) : ℚ)) ≠ 0 := by
    exact_mod_cast hnz
  rw [normalizePerChannel_getD rows i hi]
  have hfun : (fun (c : ℕ) => npDiv (.fin (c : ℚ)) (.fin ((row.sum : ℕ) : ℚ)))
      = (fun (c : ℕ) => NpVal.fin ((c : ℚ) / ((row.sum : ℕ) : ℚ))) := by
    funext c
    simp only [npDiv]
    rw [if_neg hT]
  rw [← hrow, hfun, npSum_map_fin]
  have hsum : (row.map (fun (c : ℕ) => (c : ℚ) / ((row.sum : ℕ) : ℚ))).sum
      = (((row.sum : ℕ) : ℚ)) / (((row.sum : ℕ) : ℚ)) := by
    have hmm : (fun (c : ℕ) => (c : ℚ) / ((row.sum : ℕ) : ℚ))
        = (fun x : ℚ => x / (((row.sum : ℕ) : ℚ))) ∘ (fun (c : ℕ) => (c : ℚ)) := rfl
    rw [hmm, ← List.map_map, sum_map_div]
    rw [← Nat.cast_list_sum]
  rw [hsum, div_self hT]

/-- C2 (witness): a concrete one-file stack with channel row [1, 1]
(total 2) normalises to a row summing to exactly 1. -/
theorem c2_channel_rows_normalise_to_one_witness :
    0 < (sumAxis0HistMat [[[1, 1], [0, 3]]]).length ∧
    ((sumAxis0HistMat [[[1, 1], [0, 3]]]).getD 0 []).sum ≠ 0 ∧
    npSum ((normalizePerChannel (sumAxis0HistMat [[[1, 1], [0, 3]]])).getD 0 []) = .fin 1 :=
  ⟨by decide, by decide,
   c2_channel_rows_normalise_to_one [[[1, 1], [0, 3]]] 0 (by decide) (by decide)⟩

/-- A channel slice holding the same value everywhere (96 x 16 x 20). -/
def constSlice (v : ℚ) : Ten3 :=
  List.replicate 96 (List.replicate 16 (List.replicate 20 v))

/-- One-file exposure whose 1920 channel-slice samples per channel all sit
at 1000 ADU, far outside the histogram range [-2.5, 2.5] used below, so
every per-channel histogram records zero counts. -/
def expOutOfRange : Exposure := ⟨[[[0]]], 1, [constSlice 1000]⟩

set_option maxRecDepth 200000 in
/-- C6 (counterexample): running check_dark on an exposure whose channel
samples all fall outside the histogram range gives every channel a
zero-total summed histogram; the unguarded normalisation divides the rows
by zero, producing NaN, and the very first per-channel Gaussian fit then
raises scipy's ValueError — the run crashes instead of propagating a
missing fit. -/
theorem c6_zero_count_channel_crashes :
    (check_dark (fun _ => expOutOfRange) ["f"] [0] (-2) 2 (zeroT 96 16 20)
        false "o" (fun _ _ => []))
      = ([], Except.error Err.valueError) := by
  with_unfolding_all rfl

/-- C6 (amended): the normalisation of check_dark is unguarded — each
channel row of the summed histogram is divided by that row's own total
unconditionally, so every entry of a zero-total channel's normalised row
is the NaN produced by the 0/0 division (and the subsequent per-channel
fit raises on it, as the counterexample shows). -/
theorem c6_zero_total_row_is_nan (hs : List (List ℕ)) (i : ℕ) (x : NpVal)
    (hi : i < hs.length) (hz : (hs.getD i []).sum = 0)
    (hx : x ∈ (normalizePerChannel hs).getD i []) : x = NpVal.nan := by
  rw [normalizePerChannel_getD hs i hi] at hx
  rcases List.mem_map.mp hx with ⟨c, hc, rfl⟩
  have hc0 : c = 0 := natSum_zero _ hz c hc
  subst hc0
  simp only [npDiv, hz]
  norm_num

/-- C6 (witness): the zero channel row [0, 0] normalises to NaN entries. -/
theorem c6_zero_total_row_is_nan_witness :
    0 < ([[0, 0]] : List (List ℕ)).length ∧
    (([[0, 0]] : List (List ℕ)).getD 0 []).sum = 0 ∧
    NpVal.nan ∈ (normalizePerChannel [[0, 0]]).getD 0 [] ∧
    NpVal.nan = NpVal.nan :=
  ⟨by decide, by decide, by with_unfolding_all decide,
   c6_zero_total_row_is_nan [[0, 0]] 0 NpVal.nan (by decide) (by decide)
     (by with_unfolding_all decide)⟩

/-- Modelled from the spec: section 4.2 step 2f — the dk56bis series is
specified to append, for each frame of each file in list order, the
baseline-subtracted channel-slice sample at spatial index 56, channel 15,
spectral index 10, with no averaging, independently of dk56. -/
def specDk56bis (files : List (List Ten3)) : List ℚ :=
  listJoin (files.map (fun slicesB => slicesB.map (fun s => idx3 s 56 15 10)))

/-- One-file exposure with two frames whose channel slices hold the
constant values 0 and 2; after subtracting a zero baseline, the sample at
[56, 15, 10] is 0 in the first frame and 2 in the second. -/
def expTwoFrames : Exposure := ⟨[[[0]]], 2, [constSlice 0, constSlice 2]⟩

set_option maxRecDepth 200000 in
/-- C3 (code bug, dark.py lines 247-249): on a single file of two frames
with samples 0 and 2 at [56, 15, 10], the per-exposure loop of check_dark
leaves dk56bis = [1] — a single entry, the mean of the sample across the
file's frames (slices[:, 56, 15, 10].mean(axis=-1) collapses the frame
axis, and np.vstack((dk56, ...)) stacks the scalar under the dk56 series
instead of the previous dk56bis) — whereas the specified independent
per-frame single-sample series is [0, 2], one entry per frame. -/
theorem c3_dk56bis_collapses_frames :
    (checkLoop (fun _ => expTwoFrames) (zeroT 96 16 20) (binEdges 0 2)
        ["f"]).series.dk56bis = [1] ∧
    specDk56bis [expTwoFrames.slices.map (fun s => tSub s (zeroT 96 16 20))]
      = [0, 2] := by
  exact ⟨by with_unfolding_all rfl, by with_unfolding_all rfl⟩

/-- The loop frame counter equals its initial value plus the total frame
count of the processed files. -/
theorem foldl_nbImg (mon : Bool) (load : String → Exposure) :
    ∀ (l : List String) (st : LoopState),
      (l.foldl (stepExposure mon load) st).nbImg
        = st.nbImg + (l.map (fun f => (load f).nbimg)).sum := by
  intro l
  induction l with
  | nil => intro st; simp
  | cons f t ih =>
      intro st
      rw [List.foldl_cons, ih]
      simp [stepExposure]
      omega

/-- Processing only frameless exposures preserves the zero accumulators. -/
theorem foldl_zero_state (mon : Bool) (load : String → Exposure) :
    ∀ (l : List String),
      (∀ f ∈ l, (load f).data = [] ∧ (load f).slices = [] ∧ (load f).nbimg = 0) →
      ∀ st : LoopState, st.superDark = zeroM 344 96 →
        st.superDarkChannel = zeroT 96 16 20 → st.nbImg = 0 →
        (l.foldl (stepExposure mon load) st).superDark = zeroM 344 96 ∧
        (l.foldl (stepExposure mon load) st).superDarkChannel = zeroT 96 16 20 ∧
        (l.foldl (stepExposure mon load) st).nbImg = 0 := by
  intro l
  induction l with
  | nil => intro _ st h1 h2 h3; exact ⟨h1, h2, h3⟩
  | cons f t ih =>
      intro hl st h1 h2 h3
      have hf := hl f (List.mem_cons_self f t)
      rw [List.foldl_cons]
      refine ih (fun g hg => hl g (List.mem_cons_of_mem f hg)) _ ?_ ?_ ?_
      · simp [stepExposure, hf.1, h1, npSumAxis0M, mAdd_zeroM]
      · simp [stepExposure, hf.2.1, h2, npSumAxis0T, tAdd_zeroT]
      · simp [stepExposure, hf.2.2, h3]

/-- The HDF5 write list contains no np.save effect. -/
theorem npSave_notin_h5 (op : String) (sv : Bool) (s : String) :
    Effect.npSave s ∉ h5saveEffects op sv := by
  rw [h5saveEffects]; split <;> simp

/-- The histogram figure write list contains no np.save effect. -/
theorem npSave_notin_histFig (op : String) (sv : Bool) (s : String) :
    Effect.npSave s ∉ histFigEffects op sv := by
  rw [histFigEffects]; split <;> simp

/-- The time-lapse figure write list contains no np.save effect. -/
theorem npSave_notin_lapse (op : String) (sv : Bool) (s : String) :
    Effect.npSave s ∉ lapseFigEffect op sv := by
  rw [lapseFigEffect]; split <;> simp

/-- The average-trend figure write list contains no np.save effect. -/
theorem npSave_notin_avg (op : String) (sv : Bool) (s : String) :
    Effect.npSave s ∉ avgFigEffect op sv := by
  rw [avgFigEffect]; split <;> simp

/-- check_dark performs HDF5 and figure writes only: its effect trace
never contains an np.save effect. -/
theorem check_dark_no_npSave (load : String → Exposure) (dl : List String)
    (ad : List ℚ) (emin emax : ℤ) (sdc : Ten3) (sv : Bool) (op : String)
    (fitFn : List ℚ → List NpVal → List ℚ) (s : String) :
    Effect.npSave s ∉ (check_dark load dl ad emin emax sdc sv op fitFn).1 := by
  unfold check_dark
  repeat' split
  all_goals
    simp [List.mem_append, npSave_notin_h5, npSave_notin_histFig,
      npSave_notin_lapse, npSave_notin_avg]

/-- When the selected exposures contribute no frames, the run writes no
np.save artifact at all (the two averages are persisted only inside the
nonzero-frame-count branch, and check_dark never uses np.save). -/
theorem run_zero_frames_no_npSave (a : Args) (hz : totalFrames a = 0) (s : String) :
    Effect.npSave s ∉ (get_average_dark a).1 := by
  have hnb : (loopStateOf a).nbImg = 0 := by
    rw [loopStateOf, foldl_nbImg]
    simpa [initLoop, totalFrames] using hz
  have heffSave : effSaveOf a = [] := by
    rw [effSaveOf, hnb]
    simp
  have heffDir : Effect.npSave s ∉ effDirOf a := by
    rw [effDirOf]
    split <;> simp
  cases hmon : a.monitor with
  | false =>
      rw [get_average_dark]
      simp only [hmon, Bool.false_eq_true, if_false, heffSave, List.append_nil]
      exact heffDir
  | true =>
      rw [get_average_dark]
      simp only [hmon, if_true]
      split
      · intro hmem
        rcases List.mem_append.mp hmem with h | h
        · exact heffDir h
        · rcases List.mem_append.mp h with h1 | h1
          · rw [heffSave] at h1
            cases h1
          · exact check_dark_no_npSave _ _ _ _ _ _ _ _ _ s h1
      · intro hmem
        rcases List.mem_append.mp hmem with h | h
        · exact heffDir h
        · rw [heffSave] at h
          cases h


/-- Arguments of a monitoring run over an empty directory listing. -/
def argsMonEmpty : Args :=
  ⟨"", [], fun _ => ⟨[], 0, []⟩, none, none, false, true, 0, 2, "dark", "o", true,
   fun _ _ => []⟩

/-- C1 (counterexample): a run with monitoring on over an empty selected
exposure list has total frame count zero, yet get_average_dark raises
(the loop-bound local avg_dark is unbound at the check_dark call) instead
of returning the zero-initialised arrays without error. -/
theorem c1_monitor_zero_frames_raises :
    totalFrames argsMonEmpty = 0 ∧
    (get_average_dark argsMonEmpty).2 = Except.error Err.nameError :=
  ⟨by with_unfolding_all rfl, by with_unfolding_all rfl⟩

/-- C1 (amended): with monitoring off, a run whose selected exposures
contribute zero total frames (loader well-formedness: frame and slice
counts match nbimg) skips finalization and returns the zero-initialised
344x96 whole-frame array and 96x16x20 per-channel array without raising. -/
theorem c1_zero_total_returns_zero_arrays (a : Args) (hm : a.monitor = false)
    (hwf : ∀ f ∈ darkListOf a, (a.load f).data.length = (a.load f).nbimg ∧
      (a.load f).slices.length = (a.load f).nbimg)
    (hz : totalFrames a = 0) :
    (get_average_dark a).2 = Except.ok ⟨zeroM 344 96, zeroT 96 16 20, none⟩ := by
  have hall : ∀ f ∈ darkListOf a,
      (a.load f).data = [] ∧ (a.load f).slices = [] ∧ (a.load f).nbimg = 0 := by
    intro f hf
    have hn : (a.load f).nbimg = 0 :=
      natSum_zero _ hz _ (List.mem_map.mpr ⟨f, hf, rfl⟩)
    have hd := (hwf f hf).1
    have hsl := (hwf f hf).2
    rw [hn] at hd hsl
    exact ⟨List.length_eq_zero.mp hd, List.length_eq_zero.mp hsl, hn⟩
  obtain ⟨hsd, hsdc, hnb⟩ :=
    foldl_zero_state a.monitor a.load (darkListOf a) hall initLoop rfl rfl rfl
  have h1 : superDarkFinal a = zeroM 344 96 := by
    rw [superDarkFinal, loopStateOf]
    simp [hnb, hsd]
  have h2 : superDarkChannelFinal a = zeroT 96 16 20 := by
    rw [superDarkChannelFinal, loopStateOf]
    simp [hnb, hsdc]
  rw [get_average_dark]
  simp [hm, h1, h2]

/-- Arguments of a non-monitoring run over an empty directory listing. -/
def argsEmptyNoMon : Args :=
  ⟨"", [], fun _ => ⟨[], 0, []⟩, none, none, false, false, 0, 2, "dark", "o", true,
   fun _ _ => []⟩

/-- C1 (witness): the amended statement applied to a concrete
non-monitoring run with zero total frames. -/
theorem c1_zero_total_returns_zero_arrays_witness :
    argsEmptyNoMon.monitor = false ∧ totalFrames argsEmptyNoMon = 0 ∧
    (get_average_dark argsEmptyNoMon).2
      = Except.ok ⟨zeroM 344 96, zeroT 96 16 20, none⟩ :=
  ⟨rfl, by with_unfolding_all rfl,
   c1_zero_total_returns_zero_arrays argsEmptyNoMon rfl
     (by
       intro f hf
       have hdl : darkListOf argsEmptyNoMon = [] := by with_unfolding_all rfl
       rw [hdl] at hf
       cases hf)
     (by with_unfolding_all rfl)⟩

/-- Arguments whose listing holds one file that the keyword filter does
not match, with monitoring and saving off. -/
def argsNoMatch : Args :=
  ⟨"", ["bias_01.fits"], fun _ => ⟨[], 0, []⟩, none, none, false, false, 0, 2,
   "dark", "o", true, fun _ _ => []⟩

/-- C4 (counterexample): a run whose keyword filter matches zero files
raises no error at all — there is no empty-selection check in the source;
with monitoring off the function returns the zero-initialised arrays
instead of raising a ConfigurationError before processing. -/
theorem c4_empty_selection_no_error :
    filteredFiles argsNoMatch = [] ∧
    (get_average_dark argsNoMatch).2
      = Except.ok ⟨zeroM 344 96, zeroT 96 16 20, none⟩ :=
  ⟨by with_unfolding_all rfl, by with_unfolding_all rfl⟩

/-- C4 (amended): when the keyword filter matches zero files, no error is
raised and no empty-selection check runs; the loop body never executes
and, with monitoring off, get_average_dark returns the zero-initialised
accumulators. -/
theorem c4_empty_selection_returns_zeros (a : Args) (hm : a.monitor = false)
    (he : filteredFiles a = []) :
    (get_average_dark a).2 = Except.ok ⟨zeroM 344 96, zeroT 96 16 20, none⟩ := by
  have hdl : darkListOf a = [] := by
    rw [darkListOf, he]
    cases a.nb0 <;> cases a.nb1 <;> simp [pySlice, pyIdx]
  have hst : loopStateOf a = initLoop := by
    rw [loopStateOf, hdl]
    rfl
  have h1 : superDarkFinal a = zeroM 344 96 := by
    rw [superDarkFinal, hst]
    simp [initLoop]
  have h2 : superDarkChannelFinal a = zeroT 96 16 20 := by
    rw [superDarkChannelFinal, hst]
    simp [initLoop]
  rw [get_average_dark]
  simp [hm, h1, h2]

/-- C4 (witness): the amended statement applied to the concrete
zero-match run. -/
theorem c4_empty_selection_returns_zeros_witness :
    argsNoMatch.monitor = false ∧ filteredFiles argsNoMatch = [] ∧
    (get_average_dark argsNoMatch).2
      = Except.ok ⟨zeroM 344 96, zeroT 96 16 20, none⟩ :=
  ⟨rfl, by with_unfolding_all rfl,
   c4_empty_selection_returns_zeros argsNoMatch rfl (by with_unfolding_all rfl)⟩

/-- Arguments of a run with saving and monitoring off whose output
directory does not yet exist. -/
def argsNoOutDir : Args :=
  ⟨"", [], fun _ => ⟨[], 0, []⟩, none, none, false, false, 0, 2, "dark", "o", false,
   fun _ _ => []⟩

/-- C8 (counterexample): with save unset and monitoring off, a run whose
output directory is absent still creates that directory (dark.py lines
140-141 run unconditionally), so the run is not free of filesystem
effects. -/
theorem c8_creates_directory_counterexample :
    argsNoOutDir.save = false ∧ argsNoOutDir.monitor = false ∧
    (get_average_dark argsNoOutDir).1 = [Effect.makedirs "o"] :=
  ⟨rfl, rfl, by with_unfolding_all rfl⟩

/-- C8 (amended): with save unset and monitoring off, get_average_dark
writes no artifacts — its only filesystem effect is creating the output
directory when it does not already exist. -/
theorem c8_only_effect_is_mkdir (a : Args) (hs : a.save = false)
    (hm : a.monitor = false) :
    (get_average_dark a).1
      = if a.outputExists then [] else [Effect.makedirs a.outputPath] := by
  have heffSave : effSaveOf a = [] := by
    rw [effSaveOf, hs]
    simp
  rw [get_average_dark]
  simp [hm, heffSave, effDirOf]

/-- C8 (witness): the amended statement applied to the concrete run with
an absent output directory. -/
theorem c8_only_effect_is_mkdir_witness :
    argsNoOutDir.save = false ∧ argsNoOutDir.monitor = false ∧
    (get_average_dark argsNoOutDir).1
      = if argsNoOutDir.outputExists then [] else [Effect.makedirs argsNoOutDir.outputPath] :=
  ⟨rfl, rfl, c8_only_effect_is_mkdir argsNoOutDir rfl rfl⟩

/-- C9 (confirmed): for every run with save set whose selected exposures
contribute zero total frames, neither the superdark nor the
superdarkchannel artifact is written — the two np.save calls sit inside
the nonzero-frame-count branch, and check_dark performs no np.save. -/
theorem c9_superdark_not_written_on_zero_frames (a : Args) (_hs : a.save = true)
    (hz : totalFrames a = 0) :
    Effect.npSave (a.outputPath ++ "superdark") ∉ (get_average_dark a).1 ∧
    Effect.npSave (a.outputPath ++ "superdarkchannel") ∉ (get_average_dark a).1 :=
  ⟨run_zero_frames_no_npSave a hz _, run_zero_frames_no_npSave a hz _⟩

/-- Arguments of a saving run over an empty directory listing. -/
def argsSaveEmpty : Args :=
  ⟨"", [], fun _ => ⟨[], 0, []⟩, none, none, true, false, 0, 2, "dark", "o", true,
   fun _ _ => []⟩

/-- C9 (witness): the statement applied to a concrete saving run with
zero total frames. -/
theorem c9_superdark_not_written_on_zero_frames_witness :
    argsSaveEmpty.save = true ∧ totalFrames argsSaveEmpty = 0 ∧
    (Effect.npSave (argsSaveEmpty.outputPath ++ "superdark")
        ∉ (get_average_dark argsSaveEmpty).1 ∧
     Effect.npSave (argsSaveEmpty.outputPath ++ "superdarkchannel")
        ∉ (get_average_dark argsSaveEmpty).1) :=
  ⟨rfl, by with_unfolding_all rfl,
   c9_superdark_not_written_on_zero_frames argsSaveEmpty rfl
     (by with_unfolding_all rfl)⟩

/-- C10 (confirmed): for every run with monitoring on whose selected
exposure list is empty, get_average_dark raises (the monitoring
accumulators avg_dark and spatial_axis are only bound inside the
per-exposure loop, yet are passed to check_dark) instead of returning a
result. -/
theorem c10_monitor_empty_selection_raises (a : Args) (hm : a.monitor = true)
    (he : darkListOf a = []) :
    (get_average_dark a).2 = Except.error Err.nameError := by
  have hst : loopStateOf a = initLoop := by
    rw [loopStateOf, he]
    rfl
  rw [get_average_dark]
  simp [hm, hst, initLoop]

/-- Arguments of a monitoring run over an empty listing, used to witness
the C10 statement. -/
def argsMonEmptyW : Args :=
  ⟨"", [], fun _ => ⟨[], 0, []⟩, none, none, false, true, 0, 2, "dark", "w", true,
   fun _ _ => []⟩

/-- C10 (witness): the statement applied to a concrete monitoring run
with an empty selected list. -/
theorem c10_monitor_empty_selection_raises_witness :
    argsMonEmptyW.monitor = true ∧ darkListOf argsMonEmptyW = [] ∧
    (get_average_dark argsMonEmptyW).2 = Except.error Err.nameError :=
  ⟨rfl, by with_unfolding_all rfl,
   c10_monitor_empty_selection_raises argsMonEmptyW rfl (by with_unfolding_all rfl)⟩

/-- C5 (witness): the amended spacing statement applied to the concrete
bounds (0, 2) at the first pair of edges. -/
theorem c5_binEdges_spacing_witness :
    ((0 : ℤ) < 2 ∧ 0 + 1 < (binEdges 0 2).length) ∧
    ((binEdges 0 2).Pairwise (· < ·) ∧
     (binEdges 0 2).getD (0 + 1) 0 - (binEdges 0 2).getD 0 0
       = (((2 : ℤ) : ℚ) - ((0 : ℤ) : ℚ) + 1) / (((2 : ℤ) : ℚ) - ((0 : ℤ) : ℚ)) ∧
     1 < (((2 : ℤ) : ℚ) - ((0 : ℤ) : ℚ) + 1) / (((2 : ℤ) : ℚ) - ((0 : ℤ) : ℚ))) :=
  ⟨⟨by norm_num, by with_unfolding_all decide⟩,
   c5_binEdges_spacing 0 2 0 (by norm_num) (by with_unfolding_all decide)⟩
